import Mathlib

/-!
Verification development for the coala instrumented execution pipeline
(`coalib/bears/Bear.py` and `coalib/bearlib/aspects/decorators.py`).

The Python source is shallowly embedded: stateful methods become explicit
state-passing functions over an `Eff` record of observable effects
(diagnostics, run-invocation count, profiler enabled flag, file writes),
exceptions become `Except`, and Python strings become Lean `String`s
manipulated through faithful models of the `str` methods the source uses.
-/

set_option autoImplicit false

deriving instance DecidableEq for Except

namespace Coala

/-! ## Python string primitives used by the source -/

/-- Model of Python `str.strip(chars)` on a character list: remove the
characters contained in `cs` from both ends. -/
def pyStripList (cs : List Char) (l : List Char) : List Char :=
  ((l.dropWhile (· ∈ cs)).reverse.dropWhile (· ∈ cs)).reverse

/-- Model of Python `str.strip(chars)`. -/
def pyStrip (cs : List Char) (s : String) : String :=
  ⟨pyStripList cs s.toList⟩

/-- Model of Python `str.lower()` (the source only lowercases ASCII
command words). -/
def pyLower (s : String) : String :=
  ⟨s.toList.map Char.toLower⟩

/-- The Python whitespace set stripped by a bare `str.strip()`:
space, tab, newline, carriage return, vertical tab, form feed. -/
def pyWhitespace : List Char :=
  [' ', '\t', '\n', '\r', Char.ofNat 11, Char.ofNat 12]

/-- Model of Python `str.strip()` with no argument. -/
def pyStripWs (s : String) : String :=
  pyStrip pyWhitespace s

/-- Characters of `l` strictly before the first occurrence of `c`
(the whole list when `c` is absent): Python `s.split(c, 1)[0]`. -/
def beforeFirst (c : Char) : List Char → List Char
  | [] => []
  | x :: xs => if x = c then [] else x :: beforeFirst c xs

/-- Characters of `l` strictly after the first occurrence of `c`
(empty when `c` is absent): Python `s.split(c, 1)[1]`. -/
def afterFirst (c : Char) : List Char → List Char
  | [] => []
  | x :: xs => if x = c then xs else afterFirst c xs

/-- Model of Python `str.split(sep)` for a one-character separator:
always returns at least one (possibly empty) field. -/
def splitOnChar (c : Char) : List Char → List (List Char)
  | [] => [[]]
  | x :: xs =>
    match splitOnChar c xs with
    | [] => [[]]
    | r :: rs => if x = c then [] :: r :: rs else (x :: r) :: rs

/-- Python slice `s[i:j]` on the underlying character list. -/
def strSlice (s : String) (i j : Nat) : String :=
  ⟨(s.toList.drop i).take (j - i)⟩

/-! ## `Bear.parenthesis_split` (Bear.py lines 283-305) -/

/-- The error message raised (and routed to `self.err`) on unbalanced
parentheses in `parenthesis_split`. -/
def invalidProfileMsg : String :=
  "Invalid arguments to --profile-bears"

/-- The scanning loop of `parenthesis_split` with the default separators
(`separator=','`, `lparen='('`, `rparen=')'`, the only ones the source
ever uses): walks the characters tracking the bracket nesting count
`nb_brackets`, records the index of every separator at nesting level zero,
and fails (`ValueError`) as soon as the count goes negative. Returns the
recorded split indices together with the final count. -/
def psScan : List Char → Nat → Int → Option (List Nat × Int)
  | [], _, nb => some ([], nb)
  | c :: rest, i, nb =>
    let nb1 : Int := if c = '(' then nb + 1 else if c = ')' then nb - 1 else nb
    if nb1 < 0 then none
    else
      match psScan rest (i + 1) nb1 with
      | none => none
      | some (idxs, fin) =>
        if c ≠ '(' ∧ c ≠ ')' ∧ c = ',' ∧ nb = 0 then some (i :: idxs, fin)
        else some (idxs, fin)

/-- Model of `Bear.parenthesis_split` with the default arguments.
The sentence is first stripped of separator characters, then scanned;
on success the recorded indices delimit the slices, each of which is
stripped of separator characters again.  `none` models the `ValueError`
path (the source reports `invalidProfileMsg` through `self.err` and
returns `None`). -/
def parenthesis_split (sentence : String) : Option (List String) :=
  let t := pyStrip [','] sentence
  match psScan t.toList 0 0 with
  | none => none
  | some (idxs, nb) =>
    if 0 < nb then none
    else
      let final : List Nat := 0 :: idxs ++ [t.toList.length]
      some ((final.zip final.tail).map fun p =>
        pyStrip [','] (strSlice t p.1 p.2))

/-- `parenthesis_split` together with the diagnostics it emits through
`self.err`: exactly one `invalidProfileMsg` on the failure path. -/
def parenthesis_split_run (sentence : String) :
    Option (List String) × List String :=
  match parenthesis_split sentence with
  | none => (none, [invalidProfileMsg])
  | some l => (some l, [])

/-! ### Balanced-parenthesis predicate -/

/-- Signed parenthesis balance of a character list: occurrences of `'('`
minus occurrences of `')'`. -/
def parenBal (l : List Char) : Int :=
  (l.count '(' : Int) - (l.count ')' : Int)

/-- A character list is parenthesis-balanced when no prefix closes more
parentheses than it opens and the total balance is zero. -/
def parenOk (l : List Char) : Prop :=
  (∀ p ∈ l.inits, 0 ≤ parenBal p) ∧ parenBal l = 0

instance (l : List Char) : Decidable (parenOk l) := by
  unfold parenOk; infer_instance

/-! ## `Bear.pstats_config` (Bear.py lines 307-377)

The `pstats.Stats` object is represented by the ordered list of the
post-processing operations applied to it (`PsOp`): the claims are about
which operations run and which diagnostics are emitted, not about the
timing data the real `Stats` holds. -/

/-- One applied `pstats.Stats` post-processing operation. -/
inductive PsOp
  | reverseOrder
  | stripDirs
  | add (a : List String)
  | dumpStats (a : List String)
  | sortStats (a : List String)
  | printStats (a : List String)
  | printCallers (a : List String)
  | printCallees (a : List String)
deriving DecidableEq, Repr

/-- Rendered message of the `ValueError` raised for a zero-argument pstats
command given arguments: the handler formats `args[0]` with
`str_setting + '()'` and appends `'. Applying default settings'`. -/
def noArgsMsg (hd : String) : String :=
  "The pstats method \"" ++ hd ++ "()\" does" ++
  " not accept any arguments." ++
  "Discarding user settings." ++ ". Applying default settings"

/-- Rendered message of the `ValueError` raised for an argument-taking
pstats command given an empty argument list. -/
def requiresArgMsg (hd : String) : String :=
  "The pstats method \"" ++ hd ++ "()\" requires an argument" ++
  ". Applying default settings"

/-- Message emitted when applying a pstats method raises
`UnboundLocalError` (the local `args` was never assigned). -/
def unboundMsg : String :=
  "A given pstats method requires an argument. " ++
  "Applying default settings"

/-- Message emitted for an unrecognized pstats command; it names the
original (unlowered, unstripped) setting text. -/
def unrecognizedMsg (setting : String) : String :=
  "Unrecognized setting \"" ++ setting ++ "\" for pstats" ++
  " module. Applying default settings"

/-- Message emitted when applying a pstats method raises `KeyError`
(the `except KeyError` handler, Bear.py lines 359-364). -/
def invalidArgsMsg : String :=
  "Invalid arguments given to a pstats method." ++
  " Applying default settings"

/-- The keys of `pstats.Stats.sort_arg_dict_default`, in insertion
order (CPython 3.7+, where `dict` preserves insertion order; this is
the interpreter range the profiling feature targets). -/
def sortArgWords : List String :=
  [r"calls", r"ncalls", r"cumtime", r"cumulative", r"filename", r"line",
   r"module", r"name", r"nfl", r"pcalls", r"stdname", r"time", r"tottime"]

/-- One word of `Stats.get_sort_arg_defs`'s abbreviation expansion:
walk the word's shrinking fragments, adding each one; a fragment already
present is recorded in `bad_list` (ambiguous) and the walk stops.  The
fuel is the word's length (the Python `while fragment:` loop). -/
def addFrags : List String → List String → Nat → List Char →
    List String × List String
  | d, bad, 0, _ => (d, bad)
  | d, bad, _ + 1, [] => (d, bad)
  | d, bad, n + 1, w =>
    if (⟨w⟩ : String) ∈ d then (d, bad ++ [(⟨w⟩ : String)])
    else addFrags (d ++ [(⟨w⟩ : String)]) bad n w.dropLast

/-- The valid `sort_stats` keys: `get_sort_arg_defs`'s expansion of
`sortArgWords` with the ambiguous fragments removed.  `sort_stats`
raises `KeyError` (`sort_arg_defs[word]`) for any argument outside this
set. -/
def sortArgDefs : List String :=
  let p := sortArgWords.foldl
    (fun q w => addFrags q.1 q.2 w.toList.length w.toList) ([], [])
  p.1.filter (fun k => !(p.2.contains k))

/-- Argument parsing for a command containing `'('`:
`str(setting).split('(', 1)[1].strip(' \t\n)').replace(quote, '')
.replace(dquote, '').replace(space, '').split(',')`. -/
def parseArgs (setting : String) : List String :=
  let afterParen := afterFirst '(' setting.toList
  let stripped := pyStripList [' ', '\t', '\n', ')'] afterParen
  let cleaned := stripped.filter
    (fun c => ¬ (c = Char.ofNat 39 ∨ c = Char.ofNat 34 ∨ c = ' '))
  (splitOnChar ',' cleaned).map (fun l => (⟨l⟩ : String))

/-- Loop state of the `pstats_config` command loop: `flag` and the Python
local `args` (alive across iterations once assigned — `'args' in locals()`
keeps seeing the previous command's value), the operations applied so far,
the diagnostics emitted through `self.err`, and whether the loop has
`break`-ed. -/
structure PsLoopSt where
  flag : Nat
  argsv : Option (List String)
  ops : List PsOp
  errs : List String
  brk : Bool
deriving DecidableEq, Repr

/-- Initial loop state: `flag = 0`, no `args` local assigned yet. -/
def psInit : PsLoopSt := ⟨0, none, [], [], false⟩

/-- Dispatch of one validated pstats command: sets `flag = 1` and applies
the method.  Referencing the never-assigned `args` local raises
`UnboundLocalError`; `sort_stats` raises `KeyError` for a key outside
`sortArgDefs`, which the `except KeyError` handler turns into
`invalidArgsMsg` with `flag = 0` and a break (the other argument-taking
methods report their file-system failures through exceptions the loop
does not catch, and the printing selectors accept any string; their
success is environment-dependent and modelled as the successful path,
like the report-file write); an unrecognized name emits a diagnostic and
breaks with `flag = 0`. -/
def pstatsApply (st : PsLoopSt) (argsv : Option (List String))
    (hd setting : String) : PsLoopSt :=
  let st := { st with flag := 1, argsv := argsv }
  if hd = "reverse_order" then { st with ops := st.ops ++ [.reverseOrder] }
  else if hd = "strip_dirs" then { st with ops := st.ops ++ [.stripDirs] }
  else if hd = "add" ∨ hd = "dump_stats" ∨ hd = "sort_stats" ∨
          hd = "print_stats" ∨ hd = "print_callers" ∨ hd = "print_callees" then
    match argsv with
    | some a =>
      if hd = "sort_stats" ∧ ¬ (∀ x ∈ a, x ∈ sortArgDefs) then
        -- ps.sort_stats(*args) raises KeyError (sort_arg_defs[word]) on
        -- an invalid key; caught at Bear.py 359-364
        { st with flag := 0, errs := st.errs ++ [invalidArgsMsg],
                  brk := true }
      else
        { st with ops := st.ops ++
            [if hd = "add" then .add a
             else if hd = "dump_stats" then .dumpStats a
             else if hd = "sort_stats" then .sortStats a
             else if hd = "print_stats" then .printStats a
             else if hd = "print_callers" then .printCallers a
             else .printCallees a] }
    | none =>
      { st with flag := 0, errs := st.errs ++ [unboundMsg], brk := true }
  else if hd = "no_trim" then st
  else
    { st with flag := 0, errs := st.errs ++ [unrecognizedMsg setting],
              brk := true }

/-- One iteration of the `pstats_config` loop over a command `setting`:
lower/strip it, refresh the `args` local only when the text contains
`'('`, skip empty commands, run the two `ValueError` validation checks
(which read the possibly stale `args`), then dispatch. -/
def pstatsStep (st : PsLoopSt) (setting : String) : PsLoopSt :=
  if st.brk then st
  else
    let str_setting0 := pyStrip [' ', '\n', '\t'] (pyLower setting)
    let argsv := if '(' ∈ setting.toList then some (parseArgs setting)
                 else st.argsv
    if str_setting0 = "" then { st with argsv := argsv }
    else
      let hd : String := ⟨beforeFirst '(' str_setting0.toList⟩
      match argsv with
      | some a =>
        if ¬ a = [""] ∧ (hd = "reverse_order" ∨ hd = "strip_dirs") then
          { st with flag := 0, argsv := argsv,
                    errs := st.errs ++ [noArgsMsg hd], brk := true }
        else if a = [""] ∧ ¬ (hd = "reverse_order" ∨ hd = "strip_dirs") then
          { st with flag := 0, argsv := argsv,
                    errs := st.errs ++ [requiresArgMsg hd], brk := true }
        else pstatsApply st argsv hd setting
      | none => pstatsApply st argsv hd setting

/-- The command loop folded over a command list. -/
def runSteps (cmds : List String) (st : PsLoopSt) : PsLoopSt :=
  cmds.foldl pstatsStep st

/-- Model of `Bear.pstats_config`: runs the loop over
`profile_bears[1:]` and, when `flag` ended at `0`, applies the default
formatting `strip_dirs().sort_stats('cumtime')` on top of whatever was
already applied.  Returns the applied operations and the emitted
diagnostics (the real function also receives the profiler handle and an
output stream, which carry no decision logic). -/
def pstats_config (profile_bears : List String) : List PsOp × List String :=
  let st := runSteps (profile_bears.drop 1) psInit
  if st.flag = 0 then
    (st.ops ++ [.stripDirs, .sortStats [r"cumtime"]], st.errs)
  else (st.ops, st.errs)

/-! ## The execution pipeline
(`Bear.setup_profiler`, `Bear.run_bear_from_section`, `Bear.execute`,
Bear.py lines 447-562)

Observable effects are threaded explicitly through an `Eff` record;
exceptions raised by the bear's `run` routine travel as `Except ExcKind`. -/

/-- Result items produced by a bear routine are opaque to this core. -/
abbrev Item := Nat

/-- Classification of an exception escaping the routine: an ordinary
`Exception`, the `ZeroOffsetError` subclass, or `SystemExit` (the
controlled termination signal, which is not an `Exception`). -/
inductive ExcKind
  | ordinary
  | zeroOffset
  | systemExit
deriving DecidableEq, Repr

/-- The value a routine hands back: an eagerly built list or a lazy
generator that yields the given items when drained.  A Python list is
falsy iff empty; a generator object is always truthy. -/
inductive RVal
  | list (items : List Item)
  | gen (items : List Item)
deriving DecidableEq, Repr

/-- Python truthiness of an `RVal`. -/
def rvTruthy : RVal → Bool
  | .list [] => false
  | .list (_ :: _) => true
  | .gen _ => true

/-- Materialization `list(result)` of an `RVal`. -/
def rvList : RVal → List Item
  | .list xs => xs
  | .gen xs => xs

/-- First component of `setup_profiler`'s return triple: either the
profiled routine's value or the literal `False` returned on the
unparseable, dump and disabled paths. -/
inductive SPRet
  | ran (rv : RVal)
  | skipped
deriving DecidableEq, Repr

/-- Python truthiness of `setup_profiler`'s first return component. -/
def spTruthy : SPRet → Bool
  | .ran rv => rvTruthy rv
  | .skipped => false

/-- Behaviour of one invocation of the bear's `run` routine. -/
inductive RunBehavior
  | ret (rv : RVal)
  | exc (e : ExcKind)
deriving DecidableEq, Repr

/-- The two bear kinds relevant to the diagnostics in `execute`. -/
inductive BEAR_KIND
  | LOCAL
  | GLOBAL
deriving DecidableEq, Repr

/-- Observable effects of one pipeline invocation. -/
structure Eff where
  debugs : List String
  warns : List String
  errs : List String
  runCalls : Nat
  profEnabled : Bool
  writes : List String
deriving DecidableEq, Repr

/-- The all-empty initial effect state. -/
def eff0 : Eff := ⟨[], [], [], 0, false, []⟩

/-- Everything `execute` needs about one invocation: the bear's identity
and kind, the stringified `profile_bears` setting, the target file
(`args[0]` of a local bear), whether
`get_metadata().create_params_from_section` succeeds (`metadataOk`),
whether `self.run` is the `map_setting_to_aspect` wrapper `_new_func`,
whether the report file path can be opened (`pathValid`), and the
routine's behaviour. -/
structure Invocation where
  bear_name : String
  section_name : String
  profile_bears : String
  kind : BEAR_KIND
  file : String
  metadataOk : Bool
  runIsNewFunc : Bool
  pathValid : Bool
  run : RunBehavior
deriving DecidableEq, Repr

/-- One call of `self.run(...)`: counts the invocation and produces the
routine's value or raises. -/
def callRun (inv : Invocation) (eff : Eff) : Except ExcKind RVal × Eff :=
  let eff := { eff with runCalls := eff.runCalls + 1 }
  match inv.run with
  | .ret rv => (.ok rv, eff)
  | .exc e => (.error e, eff)

/-- The `FileNotFoundError` diagnostic of the report-to-file path. -/
def fnfMsg (p : String) : String :=
  "No such file or directory: \"" ++ p ++ "\", " ++
  "the first argument to `--profile-bears`" ++
  " must be true or a valid file path"

/-- Model of `Bear.setup_profiler` (Bear.py lines 447-502).

* `parenthesis_split` failure ⇒ report the error and return `False`
  without invoking the routine.
* tokens containing both `'dump'` and `'True'` ⇒ create
  `<section_name>_<bear_name>.prof`, profile one routine invocation via
  `cProfile.runctx` (which swallows `SystemExit` and dumps the collected
  stats to the file in a `finally` block, letting other exceptions
  propagate), and return `False` — the profiled result is discarded.
* otherwise, when the first token is not `'false'`: enable a fresh
  profiler (directly via `prof.enable()`, or by handing `prof` to the
  decorated `_new_func`, which enables it on entry — the condition
  `'wrapping_function of' and '_new_func of' not in str(self.run)`
  reduces to the second conjunct because a nonempty literal is truthy),
  invoke the routine, tee-drain a generator result, disable the
  profiler, and render the report to the console (first token `'true'`)
  or append it to the file named by the first token, reporting
  `FileNotFoundError` as a user error.  There is no `try/finally`:
  an exception from the routine propagates with the profiler still
  enabled.
* first token `'false'` ⇒ return `False` without invoking the routine.

The returned `Bool` models the `kwargs` of the source's return triple
`(retval, args, kwargs)`: whether `kwargs` still carries the live
profiler handle.  On the decorated profiled path `profile_bears` is not
popped and `kwargs['profiler'] = prof` is added (the routine receives a
fresh dict via `**kwargs`, so its own pops do not remove them); on every
other path neither key survives. -/
def setup_profiler (inv : Invocation) (eff : Eff) :
    Except ExcKind (SPRet × Bool) × Eff :=
  match parenthesis_split inv.profile_bears with
  | none =>
    (.ok (.skipped, false),
     { eff with errs := eff.errs ++ [invalidProfileMsg] })
  | some toks =>
    if "dump" ∈ toks ∧ "True" ∈ toks then
      let filename := inv.section_name ++ "_" ++ inv.bear_name ++ ".prof"
      -- open(filename, 'w+') creates the file
      let eff := { eff with writes := eff.writes ++ [filename] }
      match callRun inv eff with
      | (.error e, eff) =>
        -- cProfile.runctx swallows SystemExit and dumps in a finally block
        let eff := { eff with writes := eff.writes ++ [filename] }
        if e = .systemExit then (.ok (.skipped, false), eff)
        else (.error e, eff)
      | (.ok _, eff) =>
        (.ok (.skipped, false), { eff with writes := eff.writes ++ [filename] })
    else
      let s0 := pyStripWs (pyLower (toks.headD (r"")))
      if s0 = "false" then (.ok (.skipped, false), eff)
      else
        let eff :=
          if ¬ inv.runIsNewFunc then
            { eff with profEnabled := true }   -- prof.enable()
          else
            -- kwargs['profiler'] = prof; profile_bears_decorator enables
            -- the received profiler at the entry of the decorated run
            { eff with profEnabled := true }
        match callRun inv eff with
        | (.error e, eff) =>
          -- no disable on this path: the exception propagates with the
          -- profiler still enabled
          (.error e, eff)
        | (.ok rv, eff) =>
          -- a generator result is tee'd and one cursor fully drained
          -- here, inside the profiled scope
          let eff := { eff with profEnabled := false }  -- prof.disable()
          if s0 = "true" then
            -- setup_profiler_table renders the pstats_config report as a
            -- colored console table through a temporary file
            let ps := pstats_config toks
            (.ok (.ran rv, inv.runIsNewFunc),
             { eff with errs := eff.errs ++ ps.2 })
          else
            if inv.pathValid then
              let ps := pstats_config toks
              (.ok (.ran rv, inv.runIsNewFunc),
               { eff with errs := eff.errs ++ ps.2,
                          writes := eff.writes ++ [s0] })
            else
              (.ok (.ran rv, inv.runIsNewFunc),
               { eff with errs := eff.errs ++ [fnfMsg s0] })

/-- Warning emitted when the bear's section parameters cannot be built. -/
def cannotExecMsg (name : String) : String :=
  "The bear " ++ name ++ " cannot be executed."

/-- Model of `Bear.run_bear_from_section` (Bear.py lines 504-521):
build the call parameters (a `ValueError` is turned into a warning and a
`None` return), run `setup_profiler`, and return its result — unless
that result is falsy, in which case `self.run(*args, **kwargs)` is
invoked at line 520 with the kwargs `setup_profiler` returned and its
value returned.  When those kwargs still carry the profiler handle (the
decorated profiled path), that rerun goes through `_new_func`, whose
`profile_bears_decorator` pops `'profiler'` and calls `prof.enable()`
again — the rerun is instrumented and nothing disables the profiler
afterwards; on every other path the rerun is a plain call. -/
def run_bear_from_section (inv : Invocation) (eff : Eff) :
    Except ExcKind (Option RVal) × Eff :=
  if inv.metadataOk then
    match setup_profiler inv eff with
    | (.error e, eff) => (.error e, eff)
    | (.ok (sp, hasProf), eff) =>
      match sp with
      | .ran rv =>
        if rvTruthy rv then (.ok (some rv), eff)
        else
          let eff := if hasProf then { eff with profEnabled := true }
                     else eff
          match callRun inv eff with
          | (.error e, eff) => (.error e, eff)
          | (.ok rv2, eff) => (.ok (some rv2), eff)
      | .skipped =>
        let eff := if hasProf then { eff with profEnabled := true }
                   else eff
        match callRun inv eff with
        | (.error e, eff) => (.error e, eff)
        | (.ok rv2, eff) => (.ok (some rv2), eff)
  else
    (.ok none, { eff with warns := eff.warns ++ [cannotExecMsg inv.bear_name] })

/-- Debug-level line logged before every invocation. -/
def runningMsg (name : String) : String :=
  "Running bear " ++ name ++ "..."

/-- Error emitted when the routine violated the one-based offset
convention (`ZeroOffsetError`); `self.err` also receives `str(exc)`. -/
def zeroOffsetMsg (name : String) : String :=
  "Bear " ++ name ++ " violated one-based offset convention."

/-- Failure diagnostic of a local bear, naming the target file. -/
def failedLocalMsg (name file : String) : String :=
  "Bear " ++ name ++ " failed to run on file " ++ file ++
  ". Take a look " ++ "at debug messages (`-V`) for further " ++
  "information."

/-- Failure diagnostic of a global bear. -/
def failedGlobalMsg (name : String) : String :=
  "Bear " ++ name ++ " failed to run. Take a look " ++
  "at debug messages (`-V`) for further " ++ "information."

/-- Debug-level traceback message logged after a swallowed failure. -/
def tracebackMsg (name : String) : String :=
  "The bear " ++ name ++ " raised an exception (traceback at debug level)"

/-- Model of `Bear.execute` (Bear.py lines 523-562).  The
`dependency_results` bookkeeping only trims an unused kwarg and is not
modelled.  On normal return the result is coerced to a list (`[]` for
`None`).  Any `Exception` or `SystemExit` is caught; it is re-raised
exactly when `debug` holds and the exception is not `SystemExit`;
otherwise diagnostics are emitted (naming the bear, the target file of a
local bear, and the offset violation when applicable) and the handler
falls off the end of the function, returning Python `None`. -/
def execute (inv : Invocation) (debug : Bool) (eff : Eff) :
    Except ExcKind (Option (List Item)) × Eff :=
  let eff := { eff with debugs := eff.debugs ++ [runningMsg inv.bear_name] }
  match run_bear_from_section inv eff with
  | (.ok r, eff) =>
    (.ok (some (match r with | none => [] | some rv => rvList rv)), eff)
  | (.error e, eff) =>
    if debug ∧ ¬ e = .systemExit then (.error e, eff)
    else
      let eff :=
        if e = .zeroOffset then
          { eff with errs := eff.errs ++ [zeroOffsetMsg inv.bear_name] }
        else eff
      let eff :=
        if inv.kind = .LOCAL then
          { eff with errs := eff.errs ++ [failedLocalMsg inv.bear_name inv.file] }
        else
          { eff with errs := eff.errs ++ [failedGlobalMsg inv.bear_name] }
      let eff :=
        { eff with debugs := eff.debugs ++ [tracebackMsg inv.bear_name] }
      (.ok none, eff)

/-! ## `map_setting_to_aspect` (decorators.py lines 19-67)

The aspect-override phase of the wrapper `_new_func` (lines 38-51):
settings and tastes are opaque `Val`s, the active-aspects collection is
keyed by aspect name (the source keys `aspects.get` either by the
aspectclass itself or by `aspect_value.aspect_name`; both resolve the
same registered aspect, modelled here by its name). -/

/-- An opaque setting value: the boolean written for a capability flag or
a taste's value. -/
inductive Val
  | vbool (b : Bool)
  | vstr (s : String)
deriving DecidableEq, Repr

/-- A taste table of an active aspect instance: taste name to value. -/
abbrev TasteTable := List (String × Val)

/-- The section as the wrapper sees it: the names of explicitly present
settings (`arg in self.section`) and the optional active-aspects
collection (`None`/empty is falsy and skips the whole loop). -/
structure SectionM where
  contents : List String
  aspects : Option (List (String × TasteTable))
deriving DecidableEq, Repr

/-- One value of the `aspectable_setting` mapping: an aspectclass
(capability flag) or a `Taste` reference. -/
inductive AspectValue
  | aclass (name : String)
  | taste (aspect_name : String) (tname : String)
deriving DecidableEq, Repr

/-- `aspects.get(name)`: the taste table of the active aspect instance
with that name, if any. -/
def aspectGet (aspects : List (String × TasteTable)) (name : String) :
    Option TasteTable :=
  (aspects.find? (fun p => p.1 == name)).map (·.2)

/-- Python dict lookup on the kwargs mapping. -/
def kwGet (kw : List (String × Val)) (k : String) : Option Val :=
  (kw.find? (fun p => p.1 == k)).map (·.2)

/-- Python dict assignment `kwargs[arg] = v`, modelled observationally by
shadowing: a later binding for the same key wins every `kwGet`. -/
def kwSet (kw : List (String × Val)) (k : String) (v : Val) :
    List (String × Val) :=
  (k, v) :: kw

/-- The loop over `aspectable_setting.items()`: an argument explicitly
present in the section is skipped; an aspectclass value writes the
activation flag; a `Taste` value writes the owning active aspect's taste
(a missing taste name raises `KeyError`, modelled by `.error ()`). -/
def aspectLoop (aspects : List (String × TasteTable))
    (contents : List String) :
    List (String × AspectValue) → List (String × Val) →
    Except Unit (List (String × Val))
  | [], kw => .ok kw
  | (arg, av) :: rest, kw =>
    if arg ∈ contents then aspectLoop aspects contents rest kw
    else
      match av with
      | .aclass a =>
        aspectLoop aspects contents rest
          (kwSet kw arg (.vbool (aspectGet aspects a).isSome))
      | .taste an tn =>
        match aspectGet aspects an with
        | none => aspectLoop aspects contents rest kw
        | some inst =>
          match (inst.find? (fun p => p.1 == tn)).map (·.2) with
          | none => .error ()
          | some v => aspectLoop aspects contents rest (kwSet kw arg v)

/-- The aspect-override phase of the wrapper produced by
`map_setting_to_aspect` (decorators.py lines 38-51): when the section has
a truthy aspects collection, run the override loop, else pass the kwargs
through unchanged. -/
def map_setting_to_aspect_resolve
    (aspectable_setting : List (String × AspectValue))
    (sec : SectionM) (kwargs : List (String × Val)) :
    Except Unit (List (String × Val)) :=
  match sec.aspects with
  | none => .ok kwargs
  | some aspects =>
    if aspects = [] then .ok kwargs
    else aspectLoop aspects sec.contents aspectable_setting kwargs

/-! ## The debug instrument (modelled from the spec)

`Debugger`/`debug_run` are imported from `coalib.bears.Bear` by the test
files under src/, but their code is not among the provided sources. -/

/-- One observable event of a debug session running a lazy stream. -/
inductive DebugEvent
  | step (x : Item)
  | append (x : Item)
deriving DecidableEq, Repr

/-- Modelled from the spec: the transcript of `debug_run` (spec §4.4,
code missing from src/ — only the tests `DebugBearsTest.py` and
`DebugBearTest.py` import it).  "the session must single-step through
every production event: each item must appear in the transcript as a
distinct step before being appended to the accumulated result list". -/
def debugTrace : List Item → List DebugEvent
  | [] => []
  | x :: xs => .step x :: .append x :: debugTrace xs

/-- Modelled from the spec: `debug_run` on a routine producing a lazy
stream (spec §4.4, code missing from src/).  The session produces the
event transcript and the materialized result list accumulated from the
append events; "stepping is pure observation, it must not alter order or
count", so the injectable step commands do not influence the events. -/
def debug_run (stream : List Item) : List DebugEvent × List Item :=
  let events := debugTrace stream
  (events,
   events.filterMap (fun e => match e with
     | .append x => some x
     | .step _ => none))

/-! ## Lemmas about the pipeline on raising routines -/

/-- When the routine raises, `setup_profiler` either propagates the same
exception or returns the falsy `False` with profiler-free kwargs (the
dump path after a swallowed `SystemExit`, and the paths that never run
the routine). -/
lemma setup_profiler_raise (inv : Invocation) (eff : Eff) (e : ExcKind)
    (hr : inv.run = .exc e) :
    (setup_profiler inv eff).1 = .error e ∨
    (setup_profiler inv eff).1 = .ok (.skipped, false) := by
  unfold setup_profiler
  cases hps : parenthesis_split inv.profile_bears with
  | none => simp
  | some toks =>
    simp only
    split
    · simp only [callRun, hr]
      split <;> simp
    · split
      · simp
      · simp [callRun, hr]

/-- When the routine raises and the section parameters resolve, the
exception escapes `run_bear_from_section` (every path invokes the
routine at least once). -/
lemma run_bear_from_section_raises (inv : Invocation) (eff : Eff)
    (e : ExcKind) (hm : inv.metadataOk = true) (hr : inv.run = .exc e) :
    (run_bear_from_section inv eff).1 = .error e := by
  unfold run_bear_from_section
  rw [hm]
  simp only [if_true]
  rcases setup_profiler_raise inv eff e hr with h1 | h1
  · rcases hp : setup_profiler inv eff with ⟨r, eff'⟩
    rw [hp] at h1
    simp only at h1
    subst h1
    simp
  · rcases hp : setup_profiler inv eff with ⟨r, eff'⟩
    rw [hp] at h1
    simp only at h1
    subst h1
    simp [callRun, hr]

/-! ## Claim C1 -/

/-- C1 (counterexample): the claim says `execute` "returns an empty list
to the caller"; on the concrete raising invocation below (debug off) the
swallowed-failure path falls off the end of the `except` handler and
returns Python `None`, which is not a list. -/
theorem c1_counterexample :
    (execute
      { bear_name := r"TestBear", section_name := r"default",
        profile_bears := r"False", kind := .GLOBAL, file := r"",
        metadataOk := true, runIsNewFunc := false, pathValid := true,
        run := .exc .ordinary } false eff0).1 = .ok none ∧
    (.ok none : Except ExcKind (Option (List Item))) ≠
      .ok (some ([] : List Item)) := by
  decide

/-- C1 (amended): for every invocation whose routine raises a
non-`SystemExit` exception while debug mode is off, `Bear.execute`
catches the exception, emits a diagnostic naming the bear (and, for
local bears, the target file) as its last error message, and returns
Python `None` — not an empty list — to the caller rather than
propagating the exception. -/
theorem c1_execute_swallows_failures (inv : Invocation) (eff : Eff)
    (e : ExcKind) (hm : inv.metadataOk = true) (hr : inv.run = .exc e)
    (_he : ¬ e = .systemExit) :
    (execute inv false eff).1 = .ok none ∧
    (execute inv false eff).2.errs.getLast? =
      some (if inv.kind = .LOCAL then failedLocalMsg inv.bear_name inv.file
            else failedGlobalMsg inv.bear_name) := by
  have h1 := run_bear_from_section_raises inv
    { eff with debugs := eff.debugs ++ [runningMsg inv.bear_name] } e hm hr
  rcases hp : run_bear_from_section inv
      { eff with debugs := eff.debugs ++ [runningMsg inv.bear_name] }
    with ⟨r, eff'⟩
  rw [hp] at h1
  simp only at h1
  subst h1
  unfold execute
  simp only [hp]
  constructor
  · simp
  · by_cases hz : e = .zeroOffset <;> by_cases hk : inv.kind = .LOCAL <;>
      simp [hz, hk, List.getLast?_concat]

/-- C1 (witness): the amended theorem applied to a concrete local bear
whose routine raises an ordinary exception. -/
theorem c1_witness :
    (execute
      { bear_name := r"SpaceConsistencyBear", section_name := r"default",
        profile_bears := r"False", kind := .LOCAL, file := r"a.py",
        metadataOk := true, runIsNewFunc := false, pathValid := true,
        run := .exc .ordinary } false eff0).1 = .ok none ∧
    (execute
      { bear_name := r"SpaceConsistencyBear", section_name := r"default",
        profile_bears := r"False", kind := .LOCAL, file := r"a.py",
        metadataOk := true, runIsNewFunc := false, pathValid := true,
        run := .exc .ordinary } false eff0).2.errs.getLast? =
      some (failedLocalMsg (r"SpaceConsistencyBear") (r"a.py")) := by
  have h := c1_execute_swallows_failures
    { bear_name := r"SpaceConsistencyBear", section_name := r"default",
      profile_bears := r"False", kind := .LOCAL, file := r"a.py",
      metadataOk := true, runIsNewFunc := false, pathValid := true,
      run := .exc .ordinary } eff0 .ordinary rfl rfl (by decide)
  simpa using h

/-! ## Claim C2 -/

/-- C2 (code bug): `setup_profiler` has no `try/finally` around the
profiled invocation, so when the routine raises, the exception
propagates out of `setup_profiler` with the profiler still enabled —
the enabled state leaks, contradicting the documented invariant that the
profiler is disabled after every invocation including raising ones. -/
theorem c2_profiler_leaks_on_raise :
    (setup_profiler
      { bear_name := r"TestBear", section_name := r"default",
        profile_bears := r"True", kind := .GLOBAL, file := r"",
        metadataOk := true, runIsNewFunc := false, pathValid := true,
        run := .exc .ordinary } eff0).1 = .error .ordinary ∧
    (setup_profiler
      { bear_name := r"TestBear", section_name := r"default",
        profile_bears := r"True", kind := .GLOBAL, file := r"",
        metadataOk := true, runIsNewFunc := false, pathValid := true,
        run := .exc .ordinary } eff0).2.profEnabled = true := by
  decide

/-! ## Claim C8 -/

/-- C8 (counterexample): the claim says `SystemExit` propagates out of
`Bear.execute` exactly when debug mode is on; on this concrete raising
invocation with `debug = True` the guard
`debug and not isinstance(exc, SystemExit)` is false, so the signal is
caught and the handler returns `None` instead of re-raising. -/
theorem c8_counterexample :
    (execute
      { bear_name := r"TestBear", section_name := r"default",
        profile_bears := r"False", kind := .GLOBAL, file := r"",
        metadataOk := true, runIsNewFunc := false, pathValid := true,
        run := .exc .systemExit } true eff0).1 = .ok none := by
  decide

/-- C8 (amended): a `SystemExit` raised during a bear invocation never
propagates out of `Bear.execute`, in debug mode or not; it is the
non-`SystemExit` exceptions that propagate exactly when the pipeline
runs in explicit debug mode. -/
theorem c8_systemexit_never_propagates (inv : Invocation) (eff : Eff)
    (debug : Bool) (hm : inv.metadataOk = true) :
    (inv.run = .exc .systemExit → (execute inv debug eff).1 = .ok none) ∧
    (inv.run = .exc .ordinary →
      ((execute inv debug eff).1 = .error .ordinary ↔ debug = true)) := by
  constructor
  · intro hr
    have h1 := run_bear_from_section_raises inv
      { eff with debugs := eff.debugs ++ [runningMsg inv.bear_name] }
      .systemExit hm hr
    rcases hp : run_bear_from_section inv
        { eff with debugs := eff.debugs ++ [runningMsg inv.bear_name] }
      with ⟨r, eff'⟩
    rw [hp] at h1
    simp only at h1
    subst h1
    unfold execute
    simp [hp]
  · intro hr
    have h1 := run_bear_from_section_raises inv
      { eff with debugs := eff.debugs ++ [runningMsg inv.bear_name] }
      .ordinary hm hr
    rcases hp : run_bear_from_section inv
        { eff with debugs := eff.debugs ++ [runningMsg inv.bear_name] }
      with ⟨r, eff'⟩
    rw [hp] at h1
    simp only at h1
    subst h1
    unfold execute
    simp only [hp]
    cases debug <;> simp

/-- C8 (witness): the amended theorem applied to a concrete invocation,
in debug mode, whose routine raises `SystemExit`. -/
theorem c8_witness :
    (execute
      { bear_name := r"QuitBear", section_name := r"default",
        profile_bears := r"False", kind := .GLOBAL, file := r"",
        metadataOk := true, runIsNewFunc := false, pathValid := true,
        run := .exc .systemExit } true eff0).1 = .ok none :=
  (c8_systemexit_never_propagates
    { bear_name := r"QuitBear", section_name := r"default",
      profile_bears := r"False", kind := .GLOBAL, file := r"",
      metadataOk := true, runIsNewFunc := false, pathValid := true,
      run := .exc .systemExit } eff0 true rfl).1 rfl

/-! ## Claim C3 -/

/-- C3 (confirmed): when the parsed profile request contains both
`'dump'` and `'True'`, `setup_profiler` writes the raw binary profile to
`<section_name>_<bear_name>.prof`, and the invocation still hands the
routine's result back to the caller of `run_bear_from_section` (through
the uninstrumented re-invocation taken when `setup_profiler` returns
`False`). -/
theorem c3_dump_writes_profile_and_returns_result (inv : Invocation)
    (eff : Eff) (rv : RVal) (toks : List String)
    (hm : inv.metadataOk = true) (hr : inv.run = .ret rv)
    (hps : parenthesis_split inv.profile_bears = some toks)
    (hdump : "dump" ∈ toks) (htrue : "True" ∈ toks) :
    (run_bear_from_section inv eff).1 = .ok (some rv) ∧
    (inv.section_name ++ "_" ++ inv.bear_name ++ ".prof") ∈
      (run_bear_from_section inv eff).2.writes := by
  unfold run_bear_from_section setup_profiler
  rw [hm]
  simp only [hps, if_true]
  rw [if_pos ⟨hdump, htrue⟩]
  simp [callRun, hr]

/-- C3 (witness): the theorem applied to a concrete invocation with
profile request `'True,dump'` and a routine yielding two items. -/
theorem c3_witness :
    (run_bear_from_section
      { bear_name := r"TestBear", section_name := r"default",
        profile_bears := r"True,dump", kind := .GLOBAL, file := r"",
        metadataOk := true, runIsNewFunc := false, pathValid := true,
        run := .ret (.gen [1, 2]) } eff0).1 = .ok (some (.gen [1, 2])) ∧
    ((r"default") ++ "_" ++ (r"TestBear") ++ ".prof") ∈
      (run_bear_from_section
        { bear_name := r"TestBear", section_name := r"default",
          profile_bears := r"True,dump", kind := .GLOBAL, file := r"",
          metadataOk := true, runIsNewFunc := false, pathValid := true,
          run := .ret (.gen [1, 2]) } eff0).2.writes :=
  c3_dump_writes_profile_and_returns_result
    { bear_name := r"TestBear", section_name := r"default",
      profile_bears := r"True,dump", kind := .GLOBAL, file := r"",
      metadataOk := true, runIsNewFunc := false, pathValid := true,
      run := .ret (.gen [1, 2]) } eff0 (.gen [1, 2])
    [r"True", r"dump"] rfl rfl (by decide) (by decide) (by decide)

/-! ## Claim C10 -/

/-- C10 (counterexample): the claim includes "the False returned on the
dump and disabled paths" among the cases where "such a routine is
executed twice per pipeline invocation"; on the disabled path
(`profile_bears = 'False'`) `setup_profiler` hands back the falsy
`False` without having invoked the routine at all, so the routine runs
exactly once, not twice. -/
theorem c10_counterexample :
    (setup_profiler
      { bear_name := r"TestBear", section_name := r"default",
        profile_bears := r"False", kind := .GLOBAL, file := r"",
        metadataOk := true, runIsNewFunc := false, pathValid := true,
        run := .ret (.list [5]) } eff0).1 = .ok (.skipped, false) ∧
    (run_bear_from_section
      { bear_name := r"TestBear", section_name := r"default",
        profile_bears := r"False", kind := .GLOBAL, file := r"",
        metadataOk := true, runIsNewFunc := false, pathValid := true,
        run := .ret (.list [5]) } eff0).2.runCalls = 1 := by
  decide

/-- C10 (amended): whenever `setup_profiler` hands back a falsy result
value, `run_bear_from_section` invokes `self.run` once more and returns
that invocation's result.  The rerun is a plain uninstrumented call
except on the profiled path of a decorator-wrapped `run`, where the
returned kwargs still carry the profiler handle and the decorator
re-enables the profiler, which nothing disables afterwards.  On the
dump path, and on a profiled invocation whose result is falsy (e.g. an
empty list), the routine thereby executes twice per pipeline invocation
— in the decorated case the second execution re-enabling and leaking
the profiler — while on the disabled path `setup_profiler` never
invoked the routine, so it executes exactly once. -/
theorem c10_falsy_rerun (inv : Invocation) (eff : Eff) (rv : RVal)
    (hm : inv.metadataOk = true) (hr : inv.run = .ret rv) :
    (∀ sp hasProf eff1,
      setup_profiler inv eff = (.ok (sp, hasProf), eff1) →
      spTruthy sp = false →
      run_bear_from_section inv eff =
        (.ok (some rv),
         { (if hasProf then { eff1 with profEnabled := true } else eff1) with
             runCalls := eff1.runCalls + 1 })) ∧
    (∀ toks, parenthesis_split inv.profile_bears = some toks →
      "dump" ∈ toks → "True" ∈ toks →
      (run_bear_from_section inv eff).2.runCalls = eff.runCalls + 2) ∧
    (∀ toks, parenthesis_split inv.profile_bears = some toks →
      ¬ ("dump" ∈ toks ∧ "True" ∈ toks) →
      pyStripWs (pyLower (toks.headD (r""))) = "false" →
      (run_bear_from_section inv eff).2.runCalls = eff.runCalls + 1) ∧
    (∀ toks, parenthesis_split inv.profile_bears = some toks →
      ¬ ("dump" ∈ toks ∧ "True" ∈ toks) →
      ¬ pyStripWs (pyLower (toks.headD (r""))) = "false" →
      inv.runIsNewFunc = true → rvTruthy rv = false →
      (run_bear_from_section inv eff).2.profEnabled = true ∧
      (run_bear_from_section inv eff).2.runCalls = eff.runCalls + 2) := by
  refine ⟨?_, ?_, ?_, ?_⟩
  · intro sp hasProf eff1 hsp hfalsy
    unfold run_bear_from_section
    rw [hm]
    simp only [hsp, if_true]
    cases sp with
    | ran rv' =>
      simp only [spTruthy] at hfalsy
      cases hasProf <;> simp [hfalsy, callRun, hr]
    | skipped => cases hasProf <;> simp [callRun, hr]
  · intro toks hps hdump htrue
    unfold run_bear_from_section setup_profiler
    rw [hm]
    simp only [hps, if_true]
    rw [if_pos ⟨hdump, htrue⟩]
    simp [callRun, hr]
  · intro toks hps hnd hs0
    unfold run_bear_from_section setup_profiler
    rw [hm]
    simp only [hps, if_true]
    rw [if_neg hnd, if_pos hs0]
    simp [callRun, hr]
  · intro toks hps hnd hs0 hdec hfalsy
    unfold run_bear_from_section setup_profiler
    rw [hm]
    simp only [hps, if_true]
    rw [if_neg hnd, if_neg hs0]
    by_cases ht : pyStripWs (pyLower (toks.head?.getD (r""))) = "true"
    · simp [ht, hdec, hfalsy, callRun, hr]
    · by_cases hpv : inv.pathValid = true <;>
        simp [ht, hpv, hdec, hfalsy, callRun, hr]

/-- C10 (witness): the last conjunct applied to a profiled invocation of
a decorator-wrapped routine returning an empty list — falsy, so the
routine runs twice, and the rerun leaves the profiler enabled. -/
theorem c10_witness :
    (run_bear_from_section
      { bear_name := r"TestBear", section_name := r"default",
        profile_bears := r"True", kind := .GLOBAL, file := r"",
        metadataOk := true, runIsNewFunc := true, pathValid := true,
        run := .ret (.list []) } eff0).2.profEnabled = true ∧
    (run_bear_from_section
      { bear_name := r"TestBear", section_name := r"default",
        profile_bears := r"True", kind := .GLOBAL, file := r"",
        metadataOk := true, runIsNewFunc := true, pathValid := true,
        run := .ret (.list []) } eff0).2.runCalls = eff0.runCalls + 2 :=
  (c10_falsy_rerun
    { bear_name := r"TestBear", section_name := r"default",
      profile_bears := r"True", kind := .GLOBAL, file := r"",
      metadataOk := true, runIsNewFunc := true, pathValid := true,
      run := .ret (.list []) } eff0 (.list []) rfl rfl).2.2.2
    [r"True"] (by decide) (by decide) (by decide) rfl rfl

/-! ## Claim C5: lemmas connecting `psScan` to parenthesis balance -/

lemma parenBal_nil : parenBal [] = 0 := by simp [parenBal]

lemma parenBal_cons (c : Char) (l : List Char) :
    parenBal (c :: l) =
      (if c = '(' then 1 else if c = ')' then (-1 : Int) else 0) +
        parenBal l := by
  by_cases h1 : c = '(' <;> by_cases h2 : c = ')' <;>
    simp_all [parenBal, List.count_cons] <;> omega

lemma parenBal_append (l1 l2 : List Char) :
    parenBal (l1 ++ l2) = parenBal l1 + parenBal l2 := by
  unfold parenBal
  rw [List.count_append, List.count_append]
  push_cast
  ring

lemma parenBal_concat (l : List Char) (c : Char) :
    parenBal (l ++ [c]) =
      parenBal l +
        (if c = '(' then 1 else if c = ')' then (-1 : Int) else 0) := by
  rw [parenBal_append, parenBal_cons, parenBal_nil, add_zero]

/-- A successful scan bounds the balance of every prefix (when started
at a nonnegative counter) and reports the total balance. -/
lemma psScan_some_bal :
    ∀ (l : List Char) (i : Nat) (nb : Int) (idxs : List Nat) (fin : Int),
      psScan l i nb = some (idxs, fin) →
      (0 ≤ nb → ∀ p, p <+: l → 0 ≤ nb + parenBal p) ∧
        fin = nb + parenBal l := by
  intro l
  induction l with
  | nil =>
    intro i nb idxs fin h
    simp only [psScan, Option.some.injEq, Prod.mk.injEq] at h
    refine ⟨fun hnb p hp => ?_, ?_⟩
    · rw [List.prefix_nil.mp hp]
      simpa [parenBal_nil] using hnb
    · simp [← h.2, parenBal_nil]
  | cons c rest ih =>
    intro i nb idxs fin h
    simp only [psScan] at h
    set d : Int := if c = '(' then nb + 1 else if c = ')' then nb - 1 else nb
      with hd
    split at h
    · exact absurd h (by simp)
    · rename_i hdneg
      split at h
      · exact absurd h (by simp)
      · rename_i idxs' fin' hrec
        have hih := ih (i + 1) d idxs' fin' hrec
        have hfin : fin = fin' := by
          split at h <;> simp only [Option.some.injEq, Prod.mk.injEq] at h <;>
            exact h.2.symm
        have hd0 : 0 ≤ d := by omega
        refine ⟨fun hnb p hp => ?_, ?_⟩
        · cases p with
          | nil => simpa [parenBal_nil] using hnb
          | cons a p' =>
            obtain ⟨hac, hp'⟩ := List.cons_prefix_cons.mp hp
            subst hac
            have hb := hih.1 hd0 p' hp'
            rw [parenBal_cons]
            by_cases h1 : a = '(' <;> by_cases h2 : a = ')' <;>
              simp [h1, h2] at hd ⊢ <;> omega
        · rw [hfin, hih.2, parenBal_cons]
          by_cases h1 : c = '(' <;> by_cases h2 : c = ')' <;>
            simp [h1, h2] at hd ⊢ <;> omega

/-- Dropping leading characters that are not parentheses preserves
`parenOk`, in both directions. -/
lemma parenOk_cons_iff (c : Char) (l : List Char)
    (h1 : ¬ c = '(') (h2 : ¬ c = ')') :
    parenOk (c :: l) ↔ parenOk l := by
  unfold parenOk
  constructor
  · rintro ⟨hpre, htot⟩
    refine ⟨fun p hp => ?_, ?_⟩
    · have := hpre (c :: p) (by
        rw [List.mem_inits] at hp ⊢
        exact List.cons_prefix_cons.mpr ⟨rfl, hp⟩)
      rwa [parenBal_cons, if_neg h1, if_neg h2, zero_add] at this
    · rwa [parenBal_cons, if_neg h1, if_neg h2, zero_add] at htot
  · rintro ⟨hpre, htot⟩
    refine ⟨fun p hp => ?_, ?_⟩
    · rw [List.mem_inits] at hp
      cases p with
      | nil => simp [parenBal_nil]
      | cons a p' =>
        obtain ⟨rfl, hp'⟩ := List.cons_prefix_cons.mp hp
        rw [parenBal_cons, if_neg h1, if_neg h2, zero_add]
        exact hpre p' ((List.mem_inits _ _).mpr hp')
    · rwa [parenBal_cons, if_neg h1, if_neg h2, zero_add]

/-- Dropping one trailing non-parenthesis character preserves `parenOk`,
in both directions. -/
lemma parenOk_concat_iff (l : List Char) (c : Char)
    (h1 : ¬ c = '(') (h2 : ¬ c = ')') :
    parenOk (l ++ [c]) ↔ parenOk l := by
  unfold parenOk
  have hbal : parenBal (l ++ [c]) = parenBal l := by
    rw [parenBal_concat, if_neg h1, if_neg h2, add_zero]
  constructor
  · rintro ⟨hpre, htot⟩
    refine ⟨fun p hp => ?_, by rwa [hbal] at htot⟩
    exact hpre p (by
      rw [List.mem_inits] at hp ⊢
      exact hp.trans (List.prefix_append l [c]))
  · rintro ⟨hpre, htot⟩
    refine ⟨fun p hp => ?_, by rwa [hbal]⟩
    rw [List.mem_inits] at hp
    rcases List.prefix_concat_iff.mp hp with hcase | hcase
    · rw [hcase, hbal]; exact htot.ge
    · exact hpre p ((List.mem_inits _ _).mpr hcase)

/-- Stripping leading separator (comma) characters preserves `parenOk`
in the direction needed below. -/
lemma parenOk_dropWhile (cs : List Char) (hcs : '(' ∉ cs ∧ ')' ∉ cs) :
    ∀ l : List Char,
      parenOk (l.dropWhile (· ∈ cs)) → parenOk l := by
  intro l
  induction l with
  | nil => simp
  | cons c t ih =>
    intro h
    by_cases hc : c ∈ cs
    · rw [List.dropWhile_cons_of_pos (by simpa using hc)] at h
      have h1 : ¬ c = '(' := fun he => hcs.1 (he ▸ hc)
      have h2 : ¬ c = ')' := fun he => hcs.2 (he ▸ hc)
      exact (parenOk_cons_iff c t h1 h2).mpr (ih h)
    · rwa [List.dropWhile_cons_of_neg (by simpa using hc)] at h

/-- Stripping trailing separator (comma) characters preserves `parenOk`
in the direction needed below. -/
lemma parenOk_rdropWhile (cs : List Char) (hcs : '(' ∉ cs ∧ ')' ∉ cs) :
    ∀ l : List Char,
      parenOk (List.rdropWhile (· ∈ cs) l) → parenOk l := by
  intro l
  induction l using List.reverseRecOn with
  | nil => simp
  | append_singleton t c ih =>
    intro h
    by_cases hc : c ∈ cs
    · rw [List.rdropWhile_concat_pos _ _ _ (by simpa using hc)] at h
      have h1 : ¬ c = '(' := fun he => hcs.1 (he ▸ hc)
      have h2 : ¬ c = ')' := fun he => hcs.2 (he ▸ hc)
      exact (parenOk_concat_iff t c h1 h2).mpr (ih h)
    · rwa [List.rdropWhile_concat_neg _ _ _ (by simpa using hc)] at h

/-- `pyStripList` is a `dropWhile` followed by an `rdropWhile`. -/
lemma pyStripList_eq (cs : List Char) (l : List Char) :
    pyStripList cs l =
      List.rdropWhile (· ∈ cs) (l.dropWhile (· ∈ cs)) := rfl

/-- If the comma-stripped input still splits successfully, the original
input was parenthesis-balanced. -/
lemma parenOk_of_split_some (s : String) (l : List String)
    (h : parenthesis_split s = some l) : parenOk s.toList := by
  unfold parenthesis_split at h
  dsimp only at h
  rcases hscan : psScan (pyStrip [','] s).toList 0 0 with _ | ⟨idxs, fin⟩
  · rw [hscan] at h
    exact absurd h (by simp)
  · rw [hscan] at h
    dsimp only at h
    have hfin : ¬ 0 < fin := by
      by_contra hlt
      rw [if_pos (by simpa using hlt)] at h
      exact absurd h (by simp)
    have hb := psScan_some_bal _ 0 0 idxs fin hscan
    have hstripOk : parenOk (pyStrip [','] s).toList := by
      constructor
      · intro p hp
        have := hb.1 le_rfl p ((List.mem_inits _ _).mp hp)
        simpa using this
      · have htot := hb.1 le_rfl (pyStrip [','] s).toList List.prefix_rfl
        have : fin = parenBal (pyStrip [','] s).toList := by
          simpa using hb.2
        omega
    have hlist : (pyStrip [','] s).toList = pyStripList [','] s.toList := rfl
    rw [hlist, pyStripList_eq] at hstripOk
    have hcs : '(' ∉ ([','] : List Char) ∧ ')' ∉ ([','] : List Char) := by
      decide
    exact parenOk_dropWhile [','] hcs s.toList
      (parenOk_rdropWhile [','] hcs _ hstripOk)

/-! ## Claim C5 -/

/-- C5 (counterexample): the claim states that splitting
`'true, dump(a,b), reverse-order'` yields exactly
`['true', 'dump(a,b)', 'reverse-order']`; the source strips only the
separator character (the comma) from each slice, so the tokens after the
first keep their leading space. -/
theorem c5_counterexample :
    parenthesis_split (r"true, dump(a,b), reverse-order") ≠
      some [r"true", r"dump(a,b)", r"reverse-order"] := by
  decide

/-- C5 (amended): `parenthesis_split` applied to
`'true, dump(a,b), reverse-order'` returns exactly
`['true', ' dump(a,b)', ' reverse-order']` — the separators are
stripped, the surrounding whitespace is kept — and applied to any input
whose parentheses are unbalanced it reports
`'Invalid arguments to --profile-bears'` through `self.err` and yields
no tokens (returns `None`). -/
theorem c5_parenthesis_split (s : String) (hs : ¬ parenOk s.toList) :
    parenthesis_split (r"true, dump(a,b), reverse-order") =
      some [r"true", r" dump(a,b)", r" reverse-order"] ∧
    parenthesis_split_run s = (none, [invalidProfileMsg]) := by
  constructor
  · decide
  · unfold parenthesis_split_run
    rcases hres : parenthesis_split s with _ | l
    · rfl
    · exact absurd (parenOk_of_split_some s l hres) hs

/-- C5 (witness): the amended theorem applied to the unbalanced input
`'dump(a'`. -/
theorem c5_witness :
    parenthesis_split (r"true, dump(a,b), reverse-order") =
      some [r"true", r" dump(a,b)", r" reverse-order"] ∧
    parenthesis_split_run (r"dump(a") = (none, [invalidProfileMsg]) :=
  c5_parenthesis_split (r"dump(a") (by decide)

/-! ## Claim C4 -/

lemma kwGet_kwSet_ne (kw : List (String × Val)) (k arg : String) (v : Val)
    (h : ¬ k = arg) : kwGet (kwSet kw k v) arg = kwGet kw arg := by
  unfold kwGet kwSet
  rw [List.find?_cons_of_neg]
  simpa using h

/-- A key explicitly present in the section is never rebound by the
aspect-override loop. -/
lemma aspectLoop_explicit (aspects : List (String × TasteTable))
    (contents : List String) (arg : String) (hmem : arg ∈ contents) :
    ∀ (items : List (String × AspectValue)) (kw kw' : List (String × Val)),
      aspectLoop aspects contents items kw = .ok kw' →
      kwGet kw' arg = kwGet kw arg := by
  intro items
  induction items with
  | nil =>
    intro kw kw' h
    unfold aspectLoop at h
    simp only [Except.ok.injEq] at h
    rw [h]
  | cons p rest ih =>
    intro kw kw' h
    obtain ⟨a, av⟩ := p
    unfold aspectLoop at h
    by_cases hin : a ∈ contents
    · rw [if_pos hin] at h
      exact ih kw kw' h
    · rw [if_neg hin] at h
      have hne : ¬ a = arg := fun he => hin (he ▸ hmem)
      cases av with
      | aclass an =>
        dsimp only at h
        rw [ih _ _ h, kwGet_kwSet_ne _ _ _ _ hne]
      | taste an tn =>
        dsimp only at h
        cases hga : aspectGet aspects an with
        | none =>
          rw [hga] at h
          exact ih _ _ h
        | some inst =>
          rw [hga] at h
          dsimp only at h
          cases hti : (inst.find? (fun q => q.1 == tn)).map (·.2) with
          | none =>
            rw [hti] at h
            exact absurd h (by simp)
          | some v =>
            rw [hti] at h
            rw [ih _ _ h, kwGet_kwSet_ne _ _ _ _ hne]

/-- C4 (confirmed): for every parameter named in the
`aspectable_setting` mapping that is explicitly present in the section's
settings store, the wrapper produced by `map_setting_to_aspect` leaves
that argument unchanged — no aspect capability flag and no taste default
overrides it, whatever aspects are active. -/
theorem c4_explicit_setting_wins
    (asetting : List (String × AspectValue)) (sec : SectionM)
    (kwargs kw' : List (String × Val)) (arg : String)
    (hmem : arg ∈ sec.contents)
    (hres : map_setting_to_aspect_resolve asetting sec kwargs = .ok kw') :
    kwGet kw' arg = kwGet kwargs arg := by
  unfold map_setting_to_aspect_resolve at hres
  cases hasp : sec.aspects with
  | none =>
    rw [hasp] at hres
    dsimp only at hres
    simp only [Except.ok.injEq] at hres
    rw [hres]
  | some aspects =>
    rw [hasp] at hres
    dsimp only at hres
    by_cases hemp : aspects = []
    · rw [if_pos hemp] at hres
      simp only [Except.ok.injEq] at hres
      rw [hres]
    · rw [if_neg hemp] at hres
      exact aspectLoop_explicit aspects sec.contents arg hmem
        asetting kwargs kw' hres

/-- C4 (witness): the theorem applied to a section where `max_length` is
explicitly set while an activated aspect would also supply it; the
untouched explicit value survives, while the unset `use_spaces` argument
is filled from the aspect. -/
theorem c4_witness :
    kwGet [(r"use_spaces", Val.vbool true), (r"max_length", Val.vstr (r"120"))]
        (r"max_length") =
      kwGet [(r"max_length", Val.vstr (r"120"))] (r"max_length") :=
  c4_explicit_setting_wins
    [((r"use_spaces"), .aclass (r"Formatting")),
     ((r"max_length"), .taste (r"LineLength") (r"max_line_length"))]
    ⟨[r"max_length"],
     some [((r"Formatting"), []),
           ((r"LineLength"), [((r"max_line_length"), .vstr (r"80"))])]⟩
    [(r"max_length", Val.vstr (r"120"))]
    [(r"use_spaces", Val.vbool true), (r"max_length", Val.vstr (r"120"))]
    (r"max_length") (by decide) (by decide)

/-! ## Claim C6 -/

/-- C6 (code bug): validation is *not* checked per command against that
command's own arguments: the Python local `args` persists across loop
iterations (`'args' in locals()`), so the bare zero-argument command
`reverse_order`, preceded by `sort_stats(cumtime)`, is rejected with
"does not accept any arguments" even though the user wrote it without
any — and the whole list is discarded for the default formatting. -/
theorem c6_stale_args_reject :
    pstats_config [r"true", r"sort_stats(cumtime)", r"reverse_order"] =
      ([.sortStats [r"cumtime"], .stripDirs, .sortStats [r"cumtime"]],
       [noArgsMsg (r"reverse_order")]) := by
  decide

/-! ## Claim C7: loop lemmas -/

lemma pstatsStep_broken (st : PsLoopSt) (s : String) (h : st.brk = true) :
    pstatsStep st s = st := by
  unfold pstatsStep
  simp [h]

lemma runSteps_broken (cmds : List String) (st : PsLoopSt)
    (h : st.brk = true) : runSteps cmds st = st := by
  induction cmds with
  | nil => rfl
  | cons c t ih =>
    show runSteps t (pstatsStep st c) = st
    rw [pstatsStep_broken st c h]
    exact ih

/-- Every branch of the dispatch either leaves the diagnostics
untouched or breaks the loop. -/
lemma pstatsApply_errs_or (st : PsLoopSt) (av : Option (List String))
    (hd s : String) :
    (pstatsApply st av hd s).errs = st.errs ∨
    (pstatsApply st av hd s).brk = true := by
  unfold pstatsApply
  repeat' split
  all_goals simp

set_option maxRecDepth 4000 in
/-- Every branch of one loop step either leaves the diagnostics
untouched or breaks the loop. -/
lemma pstatsStep_errs_or (st : PsLoopSt) (s : String) :
    (pstatsStep st s).errs = st.errs ∨ (pstatsStep st s).brk = true := by
  unfold pstatsStep
  dsimp only
  repeat' split
  all_goals first
    | exact Or.inl rfl
    | exact Or.inr rfl
    | apply pstatsApply_errs_or

/-- A step that has not broken the loop emits no diagnostics. -/
lemma pstatsStep_inv (st : PsLoopSt) (s : String)
    (h : st.brk = false → st.errs = []) :
    (pstatsStep st s).brk = false → (pstatsStep st s).errs = [] := by
  intro hb
  rcases pstatsStep_errs_or st s with h1 | h1
  · rw [h1]
    apply h
    by_cases h0 : st.brk = true
    · rw [pstatsStep_broken st s h0] at hb
      rw [h0] at hb
      exact absurd hb (by decide)
    · simpa using h0
  · rw [h1] at hb
    exact absurd hb (by decide)

lemma runSteps_inv (cmds : List String) :
    ∀ st : PsLoopSt, (st.brk = false → st.errs = []) →
      (runSteps cmds st).brk = false → (runSteps cmds st).errs = [] := by
  induction cmds with
  | nil => intro st h; exact h
  | cons c t ih =>
    intro st h
    show (runSteps t (pstatsStep st c)).brk = false →
      (runSteps t (pstatsStep st c)).errs = []
    exact ih (pstatsStep st c) (pstatsStep_inv st c h)

/-- The pstats command names recognized by the dispatch chain. -/
def recognizedNames : List String :=
  [r"reverse_order", r"strip_dirs", r"add", r"dump_stats", r"sort_stats",
   r"print_stats", r"print_callers", r"print_callees", r"no_trim"]

set_option maxRecDepth 100000 in
/-- C7 (counterexample): the command list
`['print_stats()', 'bogus_command']` contains the unrecognized command
name `bogus_command`, yet the loop breaks one command earlier on the
empty-argument validation error of `print_stats()`: the single emitted
warning names `print_stats`, never `bogus_command`. -/
theorem c7_counterexample :
    pstats_config [r"true", r"print_stats()", r"bogus_command"] =
      ([.stripDirs, .sortStats [r"cumtime"]],
       [requiresArgMsg (r"print_stats")]) ∧
    ¬ (r"bogus_command").toList <:+: (requiresArgMsg (r"print_stats")).toList := by
  decide

/-- C7 (amended): for every command list in which the unrecognized
command is actually reached — every preceding command validated and
applied without breaking the loop (so in particular no earlier
validation error, `UnboundLocalError` or `sort_stats` `KeyError`) — and
whose argument state at that command is not the empty-argument marker
`['']` (which would instead trigger the stale requires-an-argument
error), `pstats_config` abandons the rest of the list, emits exactly one
warning naming the unrecognized command, and returns the operations
applied so far followed by the default formatting: directory prefixes
stripped and rows sorted by cumulative time. -/
theorem c7_unrecognized_fallback (head setting : String)
    (cmds rest : List String)
    (hbrk : (runSteps cmds psInit).brk = false)
    (hne : ¬ pyStrip [' ', '\n', '\t'] (pyLower setting) = (r""))
    (hunrec : (⟨beforeFirst '('
        (pyStrip [' ', '\n', '\t'] (pyLower setting)).toList⟩ : String) ∉
      recognizedNames)
    (hargs : ¬ (if '(' ∈ setting.toList then some (parseArgs setting)
                else (runSteps cmds psInit).argsv) = some [r""]) :
    pstats_config (head :: (cmds ++ setting :: rest)) =
      ((runSteps cmds psInit).ops ++ [.stripDirs, .sortStats [r"cumtime"]],
       [unrecognizedMsg setting]) := by
  simp only [recognizedNames, List.mem_cons, List.not_mem_nil, or_false,
    not_or] at hunrec
  obtain ⟨u1, u2, u3, u4, u5, u6, u7, u8, u9⟩ := hunrec
  have herrs : (runSteps cmds psInit).errs = [] :=
    runSteps_inv cmds psInit (fun _ => rfl) hbrk
  have hstep : pstatsStep (runSteps cmds psInit) setting =
      { runSteps cmds psInit with
        flag := 0,
        argsv := (if '(' ∈ setting.toList then some (parseArgs setting)
                  else (runSteps cmds psInit).argsv),
        errs := (runSteps cmds psInit).errs ++ [unrecognizedMsg setting],
        brk := true } := by
    unfold pstatsStep pstatsApply
    dsimp only
    simp only [String.toList] at u1 u2 u3 u4 u5 u6 u7 u8 u9 hargs ⊢
    rw [if_neg (by simp [hbrk])]
    rw [if_neg hne]
    rcases hargsv : (if '(' ∈ setting.data then some (parseArgs setting)
        else (runSteps cmds psInit).argsv) with _ | a
    · dsimp only
      rw [if_neg u1, if_neg u2,
        if_neg (by simp [u3, u4, u5, u6, u7, u8]), if_neg u9]
    · dsimp only
      rw [if_neg (by simp [u1, u2])]
      rw [if_neg (by
        rw [hargsv] at hargs
        simp only [Option.some.injEq] at hargs
        simp [hargs])]
      rw [if_neg u1, if_neg u2,
        if_neg (by simp [u3, u4, u5, u6, u7, u8]), if_neg u9]
  unfold pstats_config
  show (let st := runSteps ((cmds ++ setting :: rest)) psInit
        if st.flag = 0 then
          (st.ops ++ [.stripDirs, .sortStats [r"cumtime"]], st.errs)
        else (st.ops, st.errs)) = _
  rw [show runSteps (cmds ++ setting :: rest) psInit =
      runSteps (setting :: rest) (runSteps cmds psInit) from
    List.foldl_append _ _ _ _]
  show (let st := runSteps rest (pstatsStep (runSteps cmds psInit) setting)
        if st.flag = 0 then
          (st.ops ++ [.stripDirs, .sortStats [r"cumtime"]], st.errs)
        else (st.ops, st.errs)) = _
  rw [hstep, runSteps_broken _ _ rfl]
  simp [herrs]

/-- C7 (witness): the amended theorem applied to the spec's scenario
`['strip_dirs', 'bogus_command']`. -/
theorem c7_witness :
    pstats_config [r"true", r"strip_dirs", r"bogus_command"] =
      ([.stripDirs, .stripDirs, .sortStats [r"cumtime"]],
       [unrecognizedMsg (r"bogus_command")]) :=
  c7_unrecognized_fallback (r"true") (r"bogus_command") [r"strip_dirs"] []
    (by decide) (by decide) (by decide) (by decide)

/-! ## Claim C9 -/

/-- C9 (confirmed, modelled from the spec): running a lazy-stream
routine under the debug instrument yields the list of exactly the items
the stream would produce when drained directly, in the same order, and
the transcript shows, for every position `i`, the step observation of
item `i` strictly before the corresponding append. -/
theorem c9_debug_run_stream (xs : List Item) :
    (debug_run xs).2 = xs ∧
    ∀ i : Nat,
      (debug_run xs).1.get? (2 * i) = (xs.get? i).map DebugEvent.step ∧
      (debug_run xs).1.get? (2 * i + 1) = (xs.get? i).map DebugEvent.append := by
  induction xs with
  | nil =>
    refine ⟨rfl, fun i => ?_⟩
    simp [debug_run, debugTrace]
  | cons x t ih =>
    constructor
    · show x :: (debug_run t).2 = x :: t
      rw [ih.1]
    · intro i
      cases i with
      | zero => exact ⟨rfl, rfl⟩
      | succ j =>
        have h2 : 2 * (j + 1) = 2 * j + 1 + 1 := by ring
        have h3 : 2 * (j + 1) + 1 = (2 * j + 1) + 1 + 1 := by ring
        constructor
        · rw [h2]
          show (debugTrace t).get? (2 * j) = (t.get? j).map DebugEvent.step
          exact (ih.2 j).1
        · rw [h3]
          show (debugTrace t).get? (2 * j + 1) = (t.get? j).map DebugEvent.append
          exact (ih.2 j).2

end Coala
